import Mathlib

/-!
Verification of the SoleStyle storefront/admin repository.

The server (Hono request handlers over a key-value store) is embedded with
JavaScript objects modelled as association lists of string keys to `JVal`
values, so that object spread `{...a, ...b}` and property lookup keep their
JavaScript semantics.  The client components (storefront filtering/sorting,
cart, checkout) are embedded as typed Lean functions mirroring the
TypeScript interfaces.  JavaScript numbers are modelled as exact rationals.
-/

/-- A JSON-ish value as stored in the KV store and in request bodies. -/
inductive JVal where
  | vStr (s : String)
  | vNum (q : ℚ)
  | vBool (b : Bool)
  deriving DecidableEq, Repr

/-- An association list keyed by strings: used both for the KV store itself
and for JavaScript objects (`Obj`). -/
abbrev KV (α : Type) : Type := List (String × α)

/-- A JavaScript object: ordered fields with string keys. -/
abbrev Obj : Type := KV JVal

/-- Modelled from the spec: the external KV store's `get` call
("addressed by string keys"); first binding of the key wins, which agrees
with object-property lookup for JavaScript objects. -/
def kvGet {α : Type} : KV α → String → Option α
  | [], _ => none
  | (k', v) :: rest, k => if k' = k then some v else kvGet rest k

/-- Modelled from the spec: the external KV store's `set` call — upsert by
key.  On objects this is also JavaScript property assignment: an existing
key keeps its position, a new key is appended. -/
def kvSet {α : Type} : KV α → String → α → KV α
  | [], k, v => [(k, v)]
  | (k', v') :: rest, k, v =>
      if k' = k then (k, v) :: rest else (k', v') :: kvSet rest k v

/-- Modelled from the spec: the external KV store's `del` call — removes
every binding of the key. -/
def kvDel {α : Type} : KV α → String → KV α
  | [], _ => []
  | (k', v) :: rest, k =>
      if k' = k then kvDel rest k else (k', v) :: kvDel rest k

/-- Modelled from the spec: the external KV store's scan call, returning the
values of all keys that start with the given string, in store order. -/
def kvScan {α : Type} (pre : String) (s : KV α) : List α :=
  (s.filter (fun e => pre.isPrefixOf e.1)).map Prod.snd

/-- JavaScript object spread `{...e, ...u}`: fields of `u` assigned onto `e`
one by one. -/
def mergeObj (e u : Obj) : Obj :=
  u.foldl (fun acc kv => kvSet acc kv.1 kv.2) e

/-- JavaScript truthiness of a possibly-absent value (`undefined` is falsy,
`""`, `0` and `false` are falsy). -/
def truthy : Option JVal → Bool
  | some (.vBool b) => b
  | some (.vStr s) => s != ""
  | some (.vNum q) => q != 0
  | none => false

/-- Modelled from the spec: bearer-token validation against the external
identity provider, given the set of tokens the provider accepts.  `none`
models a missing/unparsable Authorization header. -/
def authOk (valids : List String) : Option String → Bool
  | none => false
  | some t => valids.contains t

/-- The outcome of a request handler: HTTP status, the store after the
request, and the record in the response body when there is one. -/
structure HResp where
  status : Nat
  store : KV Obj
  body : Option Obj
  deriving DecidableEq, Repr

/-- The string `id` field of an object (the handlers read `record.id` of
records they previously stored). -/
def objIdStr (o : Obj) : String :=
  match kvGet o "id" with
  | some (.vStr s) => s
  | _ => ""

/-- Store a list of records, each under `pre ++ record.id`. -/
def writeAll (pre : String) (objs : List Obj) (st : KV Obj) : KV Obj :=
  objs.foldl (fun s o => kvSet s (pre ++ objIdStr o) o) st

/-- `POST /products`: bearer auth, then store `{...product, id, createdAt,
updatedAt}` under a fresh id. -/
def createProduct (valids : List String) (tok : Option String) (store : KV Obj)
    (product : Obj) (genId now : String) : HResp :=
  if authOk valids tok = false then ⟨401, store, none⟩
  else
    let newProduct :=
      kvSet (kvSet (kvSet product "id" (.vStr genId)) "createdAt" (.vStr now))
        "updatedAt" (.vStr now)
    ⟨200, kvSet store ("product:" ++ genId) newProduct, some newProduct⟩

/-- Shared body of `PUT /products/:id` and `PUT /orders/:id`: bearer auth,
404 when the record is missing, else store
`{...existing, ...updates, id, updatedAt}` back under the same key. -/
def putRecord (pre : String) (valids : List String) (tok : Option String)
    (store : KV Obj) (id : String) (updates : Obj) (now : String) : HResp :=
  if authOk valids tok = false then ⟨401, store, none⟩
  else
    match kvGet store (pre ++ id) with
    | none => ⟨404, store, none⟩
    | some existing =>
      let updated :=
        kvSet (kvSet (mergeObj existing updates) "id" (.vStr id))
          "updatedAt" (.vStr now)
      ⟨200, kvSet store (pre ++ id) updated, some updated⟩

/-- `PUT /products/:id`. -/
def putProduct (valids : List String) (tok : Option String) (store : KV Obj)
    (id : String) (updates : Obj) (now : String) : HResp :=
  putRecord "product:" valids tok store id updates now

/-- `PUT /orders/:id`. -/
def putOrder (valids : List String) (tok : Option String) (store : KV Obj)
    (id : String) (updates : Obj) (now : String) : HResp :=
  putRecord "order:" valids tok store id updates now

/-- `POST /orders`: no auth check; stores `{...order, id, status: 'pending',
createdAt}` under the freshly generated id. -/
def createOrder (store : KV Obj) (order : Obj) (genId now : String) : HResp :=
  let newOrder :=
    kvSet (kvSet (kvSet order "id" (.vStr genId)) "status" (.vStr "pending"))
      "createdAt" (.vStr now)
  ⟨200, kvSet store ("order:" ++ genId) newOrder, some newOrder⟩

/-- `PUT /categories/:id/toggle`: bearer auth, 404 when missing, else store
`{...existing, active: !existing.active, updatedAt}`. -/
def toggleCategory (valids : List String) (tok : Option String)
    (store : KV Obj) (id : String) (now : String) : HResp :=
  if authOk valids tok = false then ⟨401, store, none⟩
  else
    match kvGet store ("category:" ++ id) with
    | none => ⟨404, store, none⟩
    | some existing =>
      let updated :=
        kvSet (kvSet existing "active" (.vBool (!truthy (kvGet existing "active"))))
          "updatedAt" (.vStr now)
      ⟨200, kvSet store ("category:" ++ id) updated, some updated⟩

/-- `DELETE /categories/:id`: bearer auth, then unconditional key removal —
the handler never reads the record, in particular not its `active` flag. -/
def deleteCategory (valids : List String) (tok : Option String)
    (store : KV Obj) (id : String) : HResp :=
  if authOk valids tok = false then ⟨401, store, none⟩
  else ⟨200, kvDel store ("category:" ++ id), none⟩

/-- `POST /init-sample-data`: reads no Authorization header.  When no
product exists, writes the sample catalog and returns; otherwise seeds the
default delivery locations if absent.  The concrete record literals from
the source do not affect any property proved here and are taken as the
`catalog`/`locs` parameters. -/
def initSampleData (tok : Option String) (catalog locs : List Obj)
    (store : KV Obj) : HResp :=
  if (kvScan "product:" store).length = 0 then
    ⟨200, writeAll "product:" catalog store, none⟩
  else if (kvScan "delivery:" store).length = 0 then
    ⟨200, writeAll "delivery:" locs store, none⟩
  else ⟨200, store, none⟩

/-- `POST /init-categories`: reads no Authorization header.  When no
category exists, writes the default categories (taken as the `defaults`
parameter, as for `initSampleData`). -/
def initCategories (tok : Option String) (defaults : List Obj)
    (store : KV Obj) : HResp :=
  if (kvScan "category:" store).length = 0 then
    ⟨200, writeAll "category:" defaults store, none⟩
  else ⟨200, store, none⟩

/-- The `Product` interface shared by the client components. -/
structure Product where
  id : String
  name : String
  description : String
  price : ℚ
  category : String
  sizes : List ℤ
  colors : List String
  imageUrl : String
  stock : ℕ
  featured : Bool
  deriving DecidableEq, Repr

/-- The `Category` interface of the client.  `subcategories = none` models a
record whose `subcategories` field is absent (JavaScript `undefined`), which
is distinct from an empty list for the `c.subcategories || [c.name]`
fallback. -/
structure Category where
  id : String
  name : String
  description : String
  active : Bool
  subcategories : Option (List String)
  deriving DecidableEq, Repr

/-- `CartItem extends Product` with quantity and the selected size/color. -/
structure CartItem extends Product where
  quantity : ℕ
  selectedSize : ℤ
  selectedColor : String
  deriving DecidableEq, Repr

/-- The `DeliveryLocation` interface of the checkout dialog. -/
structure DeliveryLocation where
  id : String
  name : String
  cost : ℚ
  region : String
  deriving DecidableEq, Repr

/-- Typed view of an order record as read back by `GET /orders`;
`createdAt` is the millisecond timestamp `new Date(createdAt).getTime()`
computed by the handler's comparator. -/
structure OrderRec where
  id : String
  createdAt : ℕ
  customerName : String
  total : ℚ
  deriving DecidableEq, Repr

/-- `Array.prototype.sort(cmp)` with a numeric comparator: JavaScript
guarantees a stable sort, embedded as a stable insertion sort placing `a`
no later than `b` whenever `cmp a b ≤ 0`. -/
def sortWithCmp {α : Type} (cmp : α → α → ℚ) (l : List α) : List α :=
  @List.insertionSort α (fun a b => cmp a b ≤ 0)
    (fun a b => inferInstanceAs (Decidable (cmp a b ≤ 0))) l

/-- Comparator of the `"price-low"` sort mode: `(a, b) => a.price - b.price`. -/
def cmpPriceLow (a b : Product) : ℚ := a.price - b.price

/-- Comparator of the `"price-high"` sort mode: `(a, b) => b.price - a.price`. -/
def cmpPriceHigh (a b : Product) : ℚ := b.price - a.price

/-- `localeCompare`, modelled as code-point string order (the exact locale
order does not affect any property proved here). -/
def strCmp (a b : String) : ℚ := if a < b then -1 else if b < a then 1 else 0

/-- Comparator of the `"name"` sort mode. -/
def cmpName (a b : Product) : ℚ := strCmp a.name b.name

/-- Comparator of the `"featured"` sort mode: `-1` when only `a` is
featured, `1` when only `b` is, else `0`. -/
def cmpFeatured (a b : Product) : ℚ :=
  if a.featured = true ∧ b.featured = false then -1
  else if a.featured = false ∧ b.featured = true then 1
  else 0

/-- Comparator of `GET /orders`:
`(a, b) => new Date(b.createdAt).getTime() - new Date(a.createdAt).getTime()`. -/
def cmpCreatedDesc (a b : OrderRec) : ℚ := (b.createdAt : ℚ) - (a.createdAt : ℚ)

/-- The storefront's sort selector values. -/
inductive SortBy where
  | featured
  | priceLow
  | priceHigh
  | name
  | other
  deriving DecidableEq, Repr

/-- `c.subcategories || [c.name]`: the fallback fires only when the field is
absent (`undefined` is falsy); an empty array is truthy in JavaScript. -/
def jsSubcats (c : Category) : List String :=
  match c.subcategories with
  | some l => l
  | none => [c.name]

/-- Whether a character list starts with the given sequence. -/
def startsWith : List Char → List Char → Bool
  | _, [] => true
  | [], _ :: _ => false
  | x :: xs, y :: ys => x == y && startsWith xs ys

/-- Whether the second character list occurs inside the first. -/
def containsSeq : List Char → List Char → Bool
  | [], needle => needle.isEmpty
  | x :: t, needle => startsWith (x :: t) needle || containsSeq t needle

/-- `hay.includes(needle)` on strings. -/
def strIncludes (hay needle : String) : Bool :=
  containsSeq hay.toList needle.toList

/-- The storefront's `filterAndSortProducts`: active-category filter, search
filter (skipped for the empty query), category filter (skipped for "all"),
price-range filter, then the selected sort. -/
def filterAndSortProducts (products : List Product) (categories : List Category)
    (searchQuery categoryFilter : String) (priceLo priceHi : ℚ)
    (sortBy : SortBy) : List Product :=
  let activeSubcategories := categories.flatMap jsSubcats
  let f1 := products.filter (fun p => activeSubcategories.contains p.category)
  let f2 :=
    if searchQuery = "" then f1
    else
      f1.filter (fun p =>
        strIncludes p.name.toLower searchQuery.toLower ||
        strIncludes p.description.toLower searchQuery.toLower ||
        strIncludes p.category.toLower searchQuery.toLower)
  let f3 :=
    if categoryFilter = "all" then f2
    else f2.filter (fun p => p.category == categoryFilter)
  let f4 :=
    f3.filter (fun p => decide (priceLo ≤ p.price) && decide (p.price ≤ priceHi))
  match sortBy with
  | .priceLow => sortWithCmp cmpPriceLow f4
  | .priceHigh => sortWithCmp cmpPriceHigh f4
  | .name => sortWithCmp cmpName f4
  | .featured => sortWithCmp cmpFeatured f4
  | .other => f4

/-- `GET /categories/active`: the stored categories whose `active` flag is
set (the storefront loads its category list from this endpoint). -/
def activeCategories (cats : List Category) : List Category :=
  cats.filter (fun c => c.active)

/-- The storefront pipeline end to end: category list from
`GET /categories/active`, then `filterAndSortProducts`. -/
def storefrontProducts (products : List Product) (cats : List Category)
    (searchQuery categoryFilter : String) (priceLo priceHi : ℚ)
    (sortBy : SortBy) : List Product :=
  filterAndSortProducts products (activeCategories cats) searchQuery
    categoryFilter priceLo priceHi sortBy

/-- The cart-line identity used by `addToCart`: same product id, selected
size and selected color. -/
def cartMatches (product : Product) (size : ℤ) (color : String)
    (item : CartItem) : Bool :=
  item.id == product.id && item.selectedSize == size &&
    item.selectedColor == color

/-- The storefront's `addToCart`: bump the quantity of every matching line
when one exists, else append a fresh line with quantity 1. -/
def addToCart (cart : List CartItem) (product : Product) (size : ℤ)
    (color : String) : List CartItem :=
  match cart.find? (cartMatches product size color) with
  | some _ =>
      cart.map (fun item =>
        if cartMatches product size color item then
          { item with quantity := item.quantity + 1 }
        else item)
  | none =>
      cart ++ [{ toProduct := product, quantity := 1, selectedSize := size,
                 selectedColor := color }]

/-- `removeFromCart`: drop every line with the given identity. -/
def removeFromCart (cart : List CartItem) (productId : String) (size : ℤ)
    (color : String) : List CartItem :=
  cart.filter (fun item =>
    !(item.id == productId && item.selectedSize == size &&
      item.selectedColor == color))

/-- Checkout: `cart.reduce((sum, item) => sum + item.price * item.quantity, 0)`. -/
def checkoutSubtotal (cart : List CartItem) : ℚ :=
  cart.foldl (fun sum item => sum + item.price * (item.quantity : ℚ)) 0

/-- Checkout: `selectedLocation?.cost || 0` (both a missing location and a
zero cost yield 0). -/
def checkoutDeliveryCost (selectedLocation : Option DeliveryLocation) : ℚ :=
  match selectedLocation with
  | none => 0
  | some l => if l.cost = 0 then 0 else l.cost

/-- Checkout: `subtotal * 0.08`. -/
def checkoutTax (cart : List CartItem) : ℚ :=
  checkoutSubtotal cart * 0.08

/-- Checkout: `subtotal + deliveryCost + tax`. -/
def checkoutTotal (cart : List CartItem)
    (selectedLocation : Option DeliveryLocation) : ℚ :=
  checkoutSubtotal cart + checkoutDeliveryCost selectedLocation +
    checkoutTax cart

/-- `GET /orders` (typed view): bearer auth, then the stored orders sorted
newest first.  On auth failure the handler returns `{error}` with 401,
modelled as status 401 with an empty list. -/
def getOrders (valids : List String) (tok : Option String)
    (store : KV OrderRec) : Nat × List OrderRec :=
  if authOk valids tok = false then (401, [])
  else (200, sortWithCmp cmpCreatedDesc (kvScan "order:" store))

/-- Modelled from the spec (refinement comparison for the visibility rule):
a product's category string "appears in some active category's subcategory
list, or equals an active category's name if that category has no
subcategories", reading "no subcategories" as an empty-or-absent list. -/
def specSubcats (c : Category) : List String := c.subcategories.getD []

/-- Modelled from the spec: the spec's product-visibility predicate. -/
def specVisible (p : Product) (cats : List Category) : Prop :=
  ∃ c ∈ cats, c.active = true ∧
    (p.category ∈ specSubcats c ∨ (specSubcats c = [] ∧ p.category = c.name))

instance (p : Product) (cats : List Category) : Decidable (specVisible p cats) := by
  unfold specVisible
  infer_instance

/-- The admin client's category-list update after a deactivating toggle:
`categories.map(c => c.id === id ? category : c)` with the returned record
having `active: false`. -/
def deactivateCategory (cats : List Category) (cid : String) : List Category :=
  cats.map (fun d => if d.id = cid then { d with active := false } else d)

/-- The admin UI's delete control: `disabled={category.active}`. -/
def categoryDeleteDisabled (c : Category) : Bool := c.active

/-- Concrete product used in example computations. -/
def exProd (pid : String) (price : ℚ) (cat : String) (feat : Bool) : Product :=
  ⟨pid, "Sample", "", price, cat, [], [], "", 10, feat⟩

/-- Concrete cart line used in example computations. -/
def exItem (p : Product) (q : Nat) (size : ℤ) (color : String) : CartItem :=
  ⟨p, q, size, color⟩

/-- Concrete category used in example computations. -/
def exCat (cid nm : String) (act : Bool) (subs : Option (List String)) : Category :=
  ⟨cid, nm, "", act, subs⟩

/-- Concrete order used in example computations. -/
def exOrd (oid : String) (t : Nat) : OrderRec := ⟨oid, t, "", 0⟩

/-- Concrete stored category record with `active: true`. -/
def catObjActive : Obj :=
  [("id", .vStr "c1"), ("name", .vStr "Test"), ("active", .vBool true)]

/-- Concrete stored product record used in update examples. -/
def exExisting : Obj :=
  [("id", .vStr "p1"), ("price", .vNum 5), ("updatedAt", .vStr "t0")]

/-- Concrete update payload touching only `price`. -/
def exUpdates : Obj := [("price", .vNum 7)]

theorem kvGet_kvSet_self {α : Type} (s : KV α) (k : String) (v : α) :
    kvGet (kvSet s k v) k = some v := by
  induction s with
  | nil => simp [kvSet, kvGet]
  | cons e rest ih =>
    by_cases h : e.1 = k
    · simp [kvSet, kvGet, h]
    · simp [kvSet, kvGet, h, ih]

theorem kvGet_kvSet_ne {α : Type} (s : KV α) (k k' : String) (v : α)
    (h : k' ≠ k) : kvGet (kvSet s k v) k' = kvGet s k' := by
  induction s with
  | nil => simp [kvSet, kvGet, Ne.symm h]
  | cons e rest ih =>
    by_cases he : e.1 = k
    · simp [kvSet, kvGet, he, Ne.symm h]
    · simp only [kvSet, if_neg he]
      by_cases he' : e.1 = k'
      · simp [kvGet, he']
      · simp [kvGet, he', ih]

theorem kvGet_kvDel_self {α : Type} (s : KV α) (k : String) :
    kvGet (kvDel s k) k = none := by
  induction s with
  | nil => simp [kvDel, kvGet]
  | cons e rest ih =>
    by_cases h : e.1 = k
    · simp [kvDel, h, ih]
    · simp [kvDel, h, kvGet, ih]

theorem kvGet_kvDel_ne {α : Type} (s : KV α) (k k' : String) (h : k' ≠ k) :
    kvGet (kvDel s k) k' = kvGet s k' := by
  induction s with
  | nil => simp [kvDel, kvGet]
  | cons e rest ih =>
    by_cases he : e.1 = k
    · simp [kvDel, he, kvGet, Ne.symm h, ih]
    · simp only [kvDel, if_neg he]
      by_cases he' : e.1 = k'
      · simp [kvGet, he']
      · simp [kvGet, he', ih]

theorem kvGet_eq_none {α : Type} (s : KV α) (k : String)
    (h : k ∉ s.map Prod.fst) : kvGet s k = none := by
  induction s with
  | nil => rfl
  | cons e rest ih =>
    simp only [List.map_cons, List.mem_cons] at h
    push_neg at h
    simp only [kvGet, if_neg (Ne.symm h.1)]
    exact ih h.2

theorem kvGet_mergeObj (e u : Obj) (k : String)
    (hu : (u.map Prod.fst).Nodup) :
    kvGet (mergeObj e u) k = (kvGet u k).or (kvGet e k) := by
  induction u generalizing e with
  | nil => simp [mergeObj, kvGet, Option.or]
  | cons x u ih =>
    simp only [List.map_cons, List.nodup_cons] at hu
    rw [show mergeObj e (x :: u) = mergeObj (kvSet e x.1 x.2) u from rfl,
      ih _ hu.2]
    by_cases hk : x.1 = k
    · have hnone : kvGet u k = none := by
        apply kvGet_eq_none
        rw [← hk]
        exact hu.1
      simp [kvGet, hk, hnone, kvGet_kvSet_self, Option.or]
    · rw [kvGet_kvSet_ne _ _ _ _ (Ne.symm hk)]
      simp [kvGet, hk]

theorem mem_sortWithCmp {α : Type} (cmp : α → α → ℚ) (l : List α) (x : α) :
    x ∈ sortWithCmp cmp l ↔ x ∈ l :=
  List.mem_insertionSort _

theorem sortWithCmp_perm {α : Type} (cmp : α → α → ℚ) (l : List α) :
    (sortWithCmp cmp l).Perm l :=
  List.perm_insertionSort _ l

theorem insertionSort_partition {α : Type} (p : α → Bool) (r : α → α → Prop)
    [DecidableRel r]
    (h1 : ∀ a b, p a = true → r a b)
    (h2 : ∀ a b, p a = false → p b = false → r a b)
    (h3 : ∀ a b, p a = false → p b = true → ¬ r a b)
    (l : List α) :
    List.insertionSort r l = l.filter p ++ l.filter (fun x => !p x) := by
  induction l with
  | nil => rfl
  | cons x l ih =>
    simp only [List.insertionSort]
    rw [ih]
    by_cases hx : p x = true
    · have front : ∀ (L : List α), List.orderedInsert r x L = x :: L := by
        intro L
        cases L with
        | nil => rfl
        | cons y t =>
          simp only [List.orderedInsert]
          rw [if_pos (h1 x y hx)]
      rw [front]
      simp [List.filter_cons, hx]
    · have hx' : p x = false := by simpa using hx
      have through : ∀ (F N : List α), (∀ y ∈ F, p y = true) →
          List.orderedInsert r x (F ++ N) = F ++ List.orderedInsert r x N := by
        intro F
        induction F with
        | nil => intro N _; rfl
        | cons y F ihF =>
          intro N hall
          simp only [List.cons_append, List.orderedInsert, List.append_eq]
          rw [if_neg (h3 x y hx' (hall y (List.mem_cons_self _ _))),
            ihF N (fun z hz => hall z (List.mem_cons_of_mem _ hz))]
      have frontN :
          List.orderedInsert r x (l.filter (fun z => !p z)) =
            x :: l.filter (fun z => !p z) := by
        cases hN : l.filter (fun z => !p z) with
        | nil => rfl
        | cons y t =>
          have hmem : y ∈ List.filter (fun z => !p z) l := by
            rw [hN]; exact List.mem_cons_self _ _
          have hy : (!p y) = true :=
            @List.of_mem_filter α (fun z => !p z) y l hmem
          simp only [List.orderedInsert]
          rw [if_pos (h2 x y hx' (by simpa using hy))]
      rw [through _ _ (fun y hy => List.of_mem_filter hy), frontN]
      simp [List.filter_cons, hx']

theorem mem_storefrontProducts (ps : List Product) (cats : List Category)
    (lo hi : ℚ) (sb : SortBy) (p : Product) :
    p ∈ storefrontProducts ps cats "" "all" lo hi sb ↔
      p ∈ ps ∧ lo ≤ p.price ∧ p.price ≤ hi ∧
        ∃ c ∈ cats, c.active = true ∧ p.category ∈ jsSubcats c := by
  unfold storefrontProducts filterAndSortProducts activeCategories
  cases sb <;>
    · simp [mem_sortWithCmp, List.mem_filter, List.mem_flatMap]
      tauto

theorem map_noop {α : Type} (q : α → Bool) (f : α → α) (m : List α)
    (hm : ∀ y ∈ m, ¬ q y = true) :
    m.map (fun x => if q x then f x else x) = m := by
  induction m with
  | nil => rfl
  | cons x m ih =>
    have hx : ¬ q x = true := hm x (List.mem_cons_self _ _)
    simp only [List.map_cons, if_neg hx]
    rw [ih (fun y hy => hm y (List.mem_cons_of_mem _ hy))]

theorem map_update_unique {α : Type} (q : α → Bool) (f : α → α) :
    ∀ (l : List α) (i : Nat) (hi : i < l.length),
      q (l.get ⟨i, hi⟩) = true → l.countP q ≤ 1 →
      l.map (fun x => if q x then f x else x) = l.set i (f (l.get ⟨i, hi⟩)) := by
  intro l
  induction l with
  | nil => intro i hi; exact absurd hi (by simp)
  | cons x l ih =>
    intro i hi hq hcount
    cases i with
    | zero =>
      simp only [List.get] at hq
      have hcl : l.countP q = 0 := by
        have := List.countP_cons_of_pos q l hq
        omega
      simp only [List.map_cons, if_pos hq, List.set]
      rw [map_noop q f l (by
        intro y hy
        exact (List.countP_eq_zero.mp hcl) y hy)]
      simp [List.get]
    | succ i =>
      have hi' : i < l.length := by simpa using hi
      have hqtail : q (l.get ⟨i, hi'⟩) = true := by simpa [List.get] using hq
      have hpos : 0 < l.countP q :=
        List.countP_pos_iff.mpr ⟨l.get ⟨i, hi'⟩, List.get_mem l i hi', hqtail⟩
      have hx : ¬ q x = true := by
        intro hqx
        have := List.countP_cons_of_pos q l hqx
        omega
      have hcl : l.countP q ≤ 1 := by
        have := List.countP_cons_of_neg q l hx
        omega
      simp only [List.map_cons, if_neg hx, List.set]
      rw [ih i hi' hqtail hcl]
      simp [List.get]

theorem foldl_add_map {α : Type} (f : α → ℚ) (l : List α) (a : ℚ) :
    l.foldl (fun s x => s + f x) a = a + (l.map f).sum := by
  induction l generalizing a with
  | nil => simp
  | cons x l ih =>
    simp only [List.foldl_cons, List.map_cons, List.sum_cons]
    rw [ih]
    ring

theorem productKey_ne_categoryKey (pid cid : String) :
    "product:" ++ pid ≠ "category:" ++ cid := by
  intro h
  have h2 : ("product:" ++ pid).data.head? = ("category:" ++ cid).data.head? := by
    rw [h]
  rw [String.data_append, String.data_append] at h2
  have hL : ("product:".data ++ pid.data).head? = some 'p' := rfl
  have hR : ("category:".data ++ cid.data).head? = some 'c' := rfl
  rw [hL, hR] at h2
  exact absurd h2 (by decide)

theorem cmpFeatured_le_of_featured (a b : Product) (ha : a.featured = true) :
    cmpFeatured a b ≤ 0 := by
  cases hb : b.featured <;> simp [cmpFeatured, ha, hb]

theorem cmpFeatured_le_of_tie (a b : Product) (ha : a.featured = false)
    (hb : b.featured = false) : cmpFeatured a b ≤ 0 := by
  simp [cmpFeatured, ha, hb]

theorem cmpFeatured_not_le (a b : Product) (ha : a.featured = false)
    (hb : b.featured = true) : ¬ cmpFeatured a b ≤ 0 := by
  simp [cmpFeatured, ha, hb]

theorem not_visible_after_deactivate (ps : List Product) (cats : List Category)
    (cid : String) (p : Product) (lo hi : ℚ) (sb : SortBy)
    (hcov : ∀ d ∈ cats, d.active = true → p.category ∈ jsSubcats d → d.id = cid) :
    p ∉ storefrontProducts ps (deactivateCategory cats cid) "" "all" lo hi sb := by
  rw [mem_storefrontProducts]
  rintro ⟨-, -, -, c, hc, hact, hsub⟩
  obtain ⟨d, hd, hcd⟩ := List.mem_map.mp hc
  by_cases hid : d.id = cid
  · rw [if_pos hid] at hcd
    rw [← hcd] at hact
    simp at hact
  · rw [if_neg hid] at hcd
    subst hcd
    exact hid (hcov d hd hact hsub)

/-- Claim C1: for every cart and selected delivery location, checkout
computes subtotal as the sum over line items of price times quantity, tax
as 0.08 times subtotal, and total as subtotal + deliveryCost + tax; in
particular the cart `[{price: 1000, qty: 2}]` with delivery cost 0 yields
subtotal 2000, tax 160 and total 2160.  (JavaScript numbers are modelled
as exact rationals.) -/
theorem checkout_totals_spec (cart : List CartItem)
    (loc : Option DeliveryLocation) :
    checkoutSubtotal cart =
      (cart.map (fun item => item.price * (item.quantity : ℚ))).sum ∧
    checkoutTax cart = 0.08 * checkoutSubtotal cart ∧
    checkoutTotal cart loc =
      checkoutSubtotal cart + checkoutDeliveryCost loc + checkoutTax cart ∧
    checkoutSubtotal [exItem (exProd "p1" 1000 "Shoes" false) 2 7 "Black"]
      = 2000 ∧
    checkoutTax [exItem (exProd "p1" 1000 "Shoes" false) 2 7 "Black"] = 160 ∧
    checkoutTotal [exItem (exProd "p1" 1000 "Shoes" false) 2 7 "Black"] none
      = 2160 := by
  have hsub :
      checkoutSubtotal [exItem (exProd "p1" 1000 "Shoes" false) 2 7 "Black"]
        = 2000 := by
    simp [checkoutSubtotal, exItem, exProd]
    norm_num
  refine ⟨?_, ?_, rfl, hsub, ?_, ?_⟩
  · unfold checkoutSubtotal
    rw [foldl_add_map]
    ring
  · unfold checkoutTax
    ring
  · rw [checkoutTax, hsub]
    norm_num
  · rw [checkoutTotal, checkoutTax, hsub]
    norm_num [checkoutDeliveryCost]

/-- Claim C2: `addToCart` bumps the quantity of the line with the same
(product id, size, color) when one exists (leaving length and the other
lines unchanged), appends a quantity-1 line otherwise, and consequently
adding the same selection twice to an empty cart yields one line with
quantity 2. -/
theorem addToCart_spec (cart : List CartItem) (product : Product) (size : ℤ)
    (color : String) :
    (cart.countP (cartMatches product size color) = 0 →
      addToCart cart product size color =
        cart ++ [{ toProduct := product, quantity := 1, selectedSize := size,
                   selectedColor := color }]) ∧
    (∀ i (hi : i < cart.length),
      cartMatches product size color (cart.get ⟨i, hi⟩) = true →
      cart.countP (cartMatches product size color) ≤ 1 →
      addToCart cart product size color =
        cart.set i { cart.get ⟨i, hi⟩ with
                     quantity := (cart.get ⟨i, hi⟩).quantity + 1 }) ∧
    addToCart (addToCart [] product size color) product size color =
      [{ toProduct := product, quantity := 2, selectedSize := size,
         selectedColor := color }] := by
  refine ⟨?_, ?_, ?_⟩
  · intro h0
    have hf : cart.find? (cartMatches product size color) = none :=
      List.find?_eq_none.mpr (List.countP_eq_zero.mp h0)
    simp [addToCart, hf]
  · intro i hi hq hcount
    cases hfind : cart.find? (cartMatches product size color) with
    | none =>
      have := List.find?_eq_none.mp hfind _ (List.get_mem cart i hi)
      exact absurd hq this
    | some it =>
      simp only [addToCart, hfind]
      exact map_update_unique _ _ cart i hi hq hcount
  · have h1 : addToCart [] product size color =
        [{ toProduct := product, quantity := 1, selectedSize := size,
           selectedColor := color }] := by
      simp [addToCart]
    rw [h1]
    have hmatch : cartMatches product size color
        { toProduct := product, quantity := 1, selectedSize := size,
          selectedColor := color } = true := by
      simp [cartMatches]
    simp [addToCart, List.find?, hmatch]

/-- Witness for C2: the hypotheses of `addToCart_spec` hold at a concrete
single-line cart, and the bump branch produces quantity 2. -/
theorem addToCart_spec_witness :
    addToCart [exItem (exProd "p1" 500 "Shoes" false) 1 7 "Black"]
        (exProd "p1" 500 "Shoes" false) 7 "Black" =
      [exItem (exProd "p1" 500 "Shoes" false) 2 7 "Black"] := by
  have h := (addToCart_spec [exItem (exProd "p1" 500 "Shoes" false) 1 7 "Black"]
      (exProd "p1" 500 "Shoes" false) 7 "Black").2.1 0 (by decide) (by decide)
      (by decide)
  rw [h]
  decide

/-- Claim C8: the "featured" sort mode is a stable partition — the output
is the featured items in their input order followed by the non-featured
items in their input order. -/
theorem featured_sort_partition (l : List Product) :
    sortWithCmp cmpFeatured l =
      l.filter (fun p => p.featured) ++ l.filter (fun p => !p.featured) := by
  unfold sortWithCmp
  exact insertionSort_partition (fun p => p.featured) _
    (fun a b ha => cmpFeatured_le_of_featured a b ha)
    (fun a b ha hb => cmpFeatured_le_of_tie a b ha hb)
    (fun a b ha hb => cmpFeatured_not_le a b ha hb) l

/-- Claim C9: POST /orders stores and returns a record whose id is the
server-generated identifier, whose status is 'pending' and whose createdAt
is the request time, for every request body — so any client-supplied id or
status is overridden and every order enters the system pending. -/
theorem createOrder_spec (store : KV Obj) (order : Obj) (genId now : String) :
    ∃ newOrder,
      createOrder store order genId now =
        ⟨200, kvSet store ("order:" ++ genId) newOrder, some newOrder⟩ ∧
      kvGet newOrder "id" = some (.vStr genId) ∧
      kvGet newOrder "status" = some (.vStr "pending") ∧
      kvGet newOrder "createdAt" = some (.vStr now) ∧
      kvGet (kvSet store ("order:" ++ genId) newOrder) ("order:" ++ genId) =
        some newOrder := by
  refine ⟨_, rfl, ?_, ?_, ?_, kvGet_kvSet_self _ _ _⟩
  · rw [kvGet_kvSet_ne _ _ _ _ (by decide), kvGet_kvSet_ne _ _ _ _ (by decide),
      kvGet_kvSet_self]
  · rw [kvGet_kvSet_ne _ _ _ _ (by decide), kvGet_kvSet_self]
  · rw [kvGet_kvSet_self]

/-- Claim C10: with a valid token, GET /orders returns exactly the stored
orders (a permutation of the `order:`-prefix scan) sorted by createdAt in
descending order, newest first. -/
theorem getOrders_spec (valids : List String) (tok : Option String)
    (store : KV OrderRec) (hauth : authOk valids tok = true) :
    (getOrders valids tok store).1 = 200 ∧
    ((getOrders valids tok store).2).Perm (kvScan "order:" store) ∧
    ((getOrders valids tok store).2).Pairwise
      (fun a b => b.createdAt ≤ a.createdAt) := by
  refine ⟨?_, ?_, ?_⟩
  · simp [getOrders, hauth]
  · simp only [getOrders, hauth]
    simpa using sortWithCmp_perm cmpCreatedDesc (kvScan "order:" store)
  · simp only [getOrders, hauth]
    haveI : IsTotal OrderRec (fun a b => cmpCreatedDesc a b ≤ 0) := ⟨by
      intro a b
      simp only [cmpCreatedDesc, sub_nonpos, Nat.cast_le]
      exact Nat.le_total _ _⟩
    haveI : IsTrans OrderRec (fun a b => cmpCreatedDesc a b ≤ 0) := ⟨by
      intro a b c hab hbc
      simp only [cmpCreatedDesc, sub_nonpos, Nat.cast_le] at *
      exact le_trans hbc hab⟩
    have hs := List.sorted_insertionSort
      (fun a b : OrderRec => cmpCreatedDesc a b ≤ 0) (kvScan "order:" store)
    have h2 : (sortWithCmp cmpCreatedDesc (kvScan "order:" store)).Pairwise
        (fun a b => b.createdAt ≤ a.createdAt) := by
      refine List.Pairwise.imp ?_ hs
      intro a b hab
      simpa [cmpCreatedDesc, sub_nonpos] using hab
    simpa using h2

/-- Witness for C10: a concrete valid token and two stored orders. -/
theorem getOrders_spec_witness :
    authOk ["tok"] (some "tok") = true ∧
    ((getOrders ["tok"] (some "tok")
        [("order:a", exOrd "a" 10), ("order:b", exOrd "b" 20)]).1 = 200 ∧
      ((getOrders ["tok"] (some "tok")
          [("order:a", exOrd "a" 10), ("order:b", exOrd "b" 20)]).2).Perm
        (kvScan "order:" [("order:a", exOrd "a" 10), ("order:b", exOrd "b" 20)]) ∧
      ((getOrders ["tok"] (some "tok")
          [("order:a", exOrd "a" 10), ("order:b", exOrd "b" 20)]).2).Pairwise
        (fun a b => b.createdAt ≤ a.createdAt)) :=
  ⟨by decide, getOrders_spec ["tok"] (some "tok")
      [("order:a", exOrd "a" 10), ("order:b", exOrd "b" 20)] (by decide)⟩

/-- Counterexample for C3: the category `{name: "Test", active: true,
subcategories: []}` has no subcategories, and the spec's rule then makes
the product with category string "Test" visible; the storefront excludes
it, because the JavaScript fallback `c.subcategories || [c.name]` does not
fire on an empty array (an empty array is truthy). -/
theorem storefront_visibility_counterexample :
    ¬ ((exProd "pt" 100 "Test" false ∈
          storefrontProducts [exProd "pt" 100 "Test" false]
            [exCat "ct" "Test" true (some [])] "" "all" 0 50000
            SortBy.featured) ↔
        specVisible (exProd "pt" 100 "Test" false)
          [exCat "ct" "Test" true (some [])]) := by
  decide

/-- Claim C3 (amended): with empty search query, category filter "all" and
a price range containing the product's price, a loaded product is shown iff
some active category either lists the product's category string among its
subcategories, or lacks the `subcategories` field altogether and has the
product's category as its name; a category whose subcategories list is
present but empty contributes no visibility. -/
theorem storefront_visibility_amended (ps : List Product)
    (cats : List Category) (lo hi : ℚ) (sb : SortBy) (p : Product)
    (hp : p ∈ ps) (hlo : lo ≤ p.price) (hhi : p.price ≤ hi) :
    (p ∈ storefrontProducts ps cats "" "all" lo hi sb ↔
      ∃ c ∈ cats, c.active = true ∧ p.category ∈ jsSubcats c) := by
  rw [mem_storefrontProducts]
  tauto

/-- Witness for C3 (amended): a concrete product/category pair whose price
lies in the range. -/
theorem storefront_visibility_amended_witness :
    (exProd "pw" 100 "Shoes" false ∈ [exProd "pw" 100 "Shoes" false]) ∧
    ((0 : ℚ) ≤ (exProd "pw" 100 "Shoes" false).price) ∧
    ((exProd "pw" 100 "Shoes" false).price ≤ 1000) ∧
    ((exProd "pw" 100 "Shoes" false ∈
        storefrontProducts [exProd "pw" 100 "Shoes" false]
          [exCat "cw" "Footwear" true (some ["Shoes"])] "" "all" 0 1000
          SortBy.featured) ↔
      ∃ c ∈ [exCat "cw" "Footwear" true (some ["Shoes"])], c.active = true ∧
        (exProd "pw" 100 "Shoes" false).category ∈ jsSubcats c) :=
  ⟨by decide, by decide, by decide,
    storefront_visibility_amended _ _ _ _ _ _ (by decide) (by decide)
      (by decide)⟩

/-- Claim C4: toggling a category replaces its `active` boolean with its
negation and refreshes `updatedAt`, leaves every other field of the record
and every other key of the store unchanged (in particular every `product:`
record), and a product whose only active covering category is the
deactivated one stops appearing in the storefront with no mutation of any
product. -/
theorem toggleCategory_spec (valids : List String) (tok : Option String)
    (store : KV Obj) (id now : String) (existing : Obj)
    (hauth : authOk valids tok = true)
    (hex : kvGet store ("category:" ++ id) = some existing) :
    ∃ updated,
      toggleCategory valids tok store id now =
        ⟨200, kvSet store ("category:" ++ id) updated, some updated⟩ ∧
      (∀ b, kvGet existing "active" = some (.vBool b) →
        kvGet updated "active" = some (.vBool (!b))) ∧
      kvGet updated "updatedAt" = some (.vStr now) ∧
      (∀ k, k ≠ "active" → k ≠ "updatedAt" →
        kvGet updated k = kvGet existing k) ∧
      (∀ k, k ≠ "category:" ++ id →
        kvGet (kvSet store ("category:" ++ id) updated) k = kvGet store k) ∧
      (∀ pid, kvGet (kvSet store ("category:" ++ id) updated)
          ("product:" ++ pid) = kvGet store ("product:" ++ pid)) ∧
      (∀ (ps : List Product) (cats : List Category) (cid : String)
         (p : Product) (lo hi : ℚ) (sb : SortBy),
        (∀ d ∈ cats, d.active = true → p.category ∈ jsSubcats d → d.id = cid) →
        p ∉ storefrontProducts ps (deactivateCategory cats cid) "" "all"
          lo hi sb) := by
  refine ⟨kvSet (kvSet existing "active"
      (.vBool (!truthy (kvGet existing "active")))) "updatedAt" (.vStr now),
    ?_, ?_, ?_, ?_, ?_, ?_, ?_⟩
  · simp [toggleCategory, hauth, hex]
  · intro b hb
    rw [kvGet_kvSet_ne _ _ _ _ (by decide), kvGet_kvSet_self, hb]
    simp [truthy]
  · rw [kvGet_kvSet_self]
  · intro k hk1 hk2
    rw [kvGet_kvSet_ne _ _ _ _ hk2, kvGet_kvSet_ne _ _ _ _ hk1]
  · intro k hk
    exact kvGet_kvSet_ne _ _ _ _ hk
  · intro pid
    exact kvGet_kvSet_ne _ _ _ _ (productKey_ne_categoryKey pid id)
  · intro ps cats cid p lo hi sb hcov
    exact not_visible_after_deactivate ps cats cid p lo hi sb hcov

/-- Witness for C4: toggling a concrete active category in a one-record
store. -/
theorem toggleCategory_spec_witness :
    authOk ["t"] (some "t") = true ∧
    kvGet [("category:c1", catObjActive)] ("category:" ++ "c1")
      = some catObjActive ∧
    ∃ updated,
      toggleCategory ["t"] (some "t") [("category:c1", catObjActive)]
          "c1" "T" =
        ⟨200, kvSet [("category:c1", catObjActive)] ("category:" ++ "c1")
          updated, some updated⟩ := by
  refine ⟨by decide, by decide, ?_⟩
  obtain ⟨u, h1, -, -, -, -, -, -⟩ :=
    toggleCategory_spec ["t"] (some "t") [("category:c1", catObjActive)]
      "c1" "T" catObjActive (by decide) (by decide)
  exact ⟨u, h1⟩

/-- Counterexample for C5: the stored category `c1` is active, yet an
authorized DELETE succeeds with status 200 and removes the record — the
server endpoint never checks the `active` flag, so "the delete request
must be prevented and the record must remain stored" fails. -/
theorem deleteCategory_counterexample :
    truthy (kvGet catObjActive "active") = true ∧
    (deleteCategory ["t"] (some "t") [("category:c1", catObjActive)]
        "c1").status = 200 ∧
    kvGet (deleteCategory ["t"] (some "t") [("category:c1", catObjActive)]
        "c1").store ("category:" ++ "c1") = none := by
  decide

/-- Claim C5 (amended): the server deletes a category unconditionally —
for every stored category, active or not, an authorized delete request
succeeds and removes the record, leaving other keys untouched; deleting an
active category is blocked only in the admin UI, whose delete button is
disabled exactly when the category is active. -/
theorem deleteCategory_amended (valids : List String) (tok : Option String)
    (store : KV Obj) (id : String) (hauth : authOk valids tok = true) :
    (deleteCategory valids tok store id).status = 200 ∧
    kvGet (deleteCategory valids tok store id).store ("category:" ++ id)
      = none ∧
    (∀ k, k ≠ "category:" ++ id →
      kvGet (deleteCategory valids tok store id).store k = kvGet store k) ∧
    (∀ c : Category, categoryDeleteDisabled c = c.active) := by
  have hd : deleteCategory valids tok store id =
      ⟨200, kvDel store ("category:" ++ id), none⟩ := by
    simp [deleteCategory, hauth]
  rw [hd]
  exact ⟨rfl, kvGet_kvDel_self _ _, fun k hk => kvGet_kvDel_ne _ _ _ hk,
    fun c => rfl⟩

/-- Witness for C5 (amended): a concrete authorized delete of a stored
category. -/
theorem deleteCategory_amended_witness :
    authOk ["t"] (some "t") = true ∧
    (deleteCategory ["t"] (some "t") [("category:c9", catObjActive)]
        "c9").status = 200 ∧
    kvGet (deleteCategory ["t"] (some "t") [("category:c9", catObjActive)]
        "c9").store ("category:" ++ "c9") = none :=
  ⟨by decide,
    (deleteCategory_amended ["t"] (some "t") [("category:c9", catObjActive)]
      "c9" (by decide)).1,
    (deleteCategory_amended ["t"] (some "t") [("category:c9", catObjActive)]
      "c9" (by decide)).2.1⟩

/-- Counterexample for C6: with an empty set of valid tokens (so every
token fails validation), POST /init-sample-data and POST /init-categories
still answer 200, not 401 — neither handler reads the Authorization
header. -/
theorem init_auth_counterexample :
    authOk [] (some "x") = false ∧
    (initSampleData (some "x") [[("id", JVal.vStr "p1")]] [] []).status
      = 200 ∧
    (initCategories (some "x") [[("id", JVal.vStr "c1")]] []).status
      = 200 := by
  decide

/-- Claim C6 (amended): POST /products answers 401 and leaves the store
unchanged when bearer-token validation fails, but POST /init-sample-data
and POST /init-categories read no Authorization header: their outcome is
independent of the supplied token and their status is always 200, never
401. -/
theorem auth_gate_amended (valids : List String) (tok : Option String)
    (store : KV Obj) (body : Obj) (gid now : String)
    (hbad : authOk valids tok = false) :
    createProduct valids tok store body gid now = ⟨401, store, none⟩ ∧
    (∀ catalog locs, (initSampleData tok catalog locs store).status = 200 ∧
      ∀ tok', initSampleData tok catalog locs store =
        initSampleData tok' catalog locs store) ∧
    (∀ defaults, (initCategories tok defaults store).status = 200 ∧
      ∀ tok', initCategories tok defaults store =
        initCategories tok' defaults store) := by
  refine ⟨by simp [createProduct, hbad], ?_, ?_⟩
  · intro catalog locs
    constructor
    · unfold initSampleData
      split
      · rfl
      · split <;> rfl
    · intro tok'
      rfl
  · intro defaults
    constructor
    · unfold initCategories
      split <;> rfl
    · intro tok'
      rfl

/-- Witness for C6 (amended): no token validates against an empty
provider, and a concrete product creation is refused with 401. -/
theorem auth_gate_amended_witness :
    authOk [] none = false ∧
    createProduct [] none [] [] "g1" "T" = ⟨401, [], none⟩ :=
  ⟨by decide, (auth_gate_amended [] none [] [] "g1" "T" (by decide)).1⟩

/-- Counterexample for C7: updating the stored record `{id: "p1", price: 5,
updatedAt: "t0"}` with the payload `{price: 7}` — which does not mention
`updatedAt` — stores `updatedAt: "t1"`, so "fields absent from the payload
are unchanged" fails as stated. -/
theorem putRecord_counterexample :
    kvGet exUpdates "updatedAt" = none ∧
    (putProduct ["t"] (some "t") [("product:p1", exExisting)] "p1" exUpdates
        "t1").body.map (fun r => kvGet r "updatedAt") =
      some (some (JVal.vStr "t1")) ∧
    kvGet exExisting "updatedAt" = some (JVal.vStr "t0") ∧
    JVal.vStr "t1" ≠ JVal.vStr "t0" := by
  decide

/-- Claim C7 (amended): PUT /products/:id and PUT /orders/:id (the two
instances of `putRecord`) replace the stored record by the field-wise
merge in which payload fields overwrite existing ones, fields absent from
the payload are unchanged except `updatedAt` (set to the request time),
and the identifier is forced to the path id even if the payload carries a
different one; no other key of the store changes. -/
theorem putRecord_amended (pre : String) (valids : List String)
    (tok : Option String) (store : KV Obj) (id : String) (updates : Obj)
    (now : String) (existing : Obj)
    (hauth : authOk valids tok = true)
    (hex : kvGet store (pre ++ id) = some existing)
    (hu : (updates.map Prod.fst).Nodup) :
    ∃ updated,
      putRecord pre valids tok store id updates now =
        ⟨200, kvSet store (pre ++ id) updated, some updated⟩ ∧
      kvGet updated "id" = some (.vStr id) ∧
      kvGet updated "updatedAt" = some (.vStr now) ∧
      (∀ k, k ≠ "id" → k ≠ "updatedAt" →
        kvGet updated k = (kvGet updates k).or (kvGet existing k)) ∧
      (∀ k, k ≠ pre ++ id →
        kvGet (kvSet store (pre ++ id) updated) k = kvGet store k) ∧
      putProduct = putRecord "product:" ∧ putOrder = putRecord "order:" := by
  refine ⟨kvSet (kvSet (mergeObj existing updates) "id" (.vStr id))
      "updatedAt" (.vStr now), ?_, ?_, ?_, ?_, ?_, rfl, rfl⟩
  · simp [putRecord, hauth, hex]
  · rw [kvGet_kvSet_ne _ _ _ _ (by decide), kvGet_kvSet_self]
  · rw [kvGet_kvSet_self]
  · intro k hk1 hk2
    rw [kvGet_kvSet_ne _ _ _ _ hk2, kvGet_kvSet_ne _ _ _ _ hk1,
      kvGet_mergeObj _ _ _ hu]
  · intro k hk
    exact kvGet_kvSet_ne _ _ _ _ hk

/-- Witness for C7 (amended): the concrete price-only update against a
one-record store. -/
theorem putRecord_amended_witness :
    authOk ["t"] (some "t") = true ∧
    kvGet [("product:p1", exExisting)] ("product:" ++ "p1")
      = some exExisting ∧
    (exUpdates.map Prod.fst).Nodup ∧
    ∃ updated,
      putRecord "product:" ["t"] (some "t") [("product:p1", exExisting)]
          "p1" exUpdates "t1" =
        ⟨200, kvSet [("product:p1", exExisting)] ("product:" ++ "p1")
          updated, some updated⟩ := by
  refine ⟨by decide, by decide, by decide, ?_⟩
  obtain ⟨u, h1, -, -, -, -, -, -⟩ :=
    putRecord_amended "product:" ["t"] (some "t") [("product:p1", exExisting)]
      "p1" exUpdates "t1" exExisting (by decide) (by decide) (by decide)
  exact ⟨u, h1⟩
